import Mathlib

/-!
# Verification of ytdl-desktop's chunk-append backend

Shallow embedding of `src-tauri/src/lib.rs`: the `append_chunk_to_file`
Tauri command (base64-decode a chunk, open the target file with
create+append semantics, `write_all` the decoded bytes) and the command
registration performed by `run`.

Bytes are modelled as `Nat` values `< 256`; the filesystem as a partial
map from path strings to byte lists; OS failures (open errors, write
errors) as an explicit per-call environment, since they are external
nondeterminism from the program's point of view.
-/

namespace Ytdl

/-- A byte string: list of naturals, each intended `< 256`. -/
abbrev Bytes := List Nat

/-- All entries of a byte list are genuine bytes. -/
def allBytes (bs : Bytes) : Prop := ∀ b ∈ bs, b < 256

instance (bs : Bytes) : Decidable (allBytes bs) := by
  unfold allBytes; infer_instance

/-! ## Base64 (standard alphabet, required padding)

Embedding of the `base64` crate's `decode` entry point as used on line 13
of `lib.rs`: standard alphabet, padding required, non-canonical trailing
bits rejected. Error messages are abstracted to short diagnostics. -/

/-- Value of one symbol of the standard base64 alphabet, `none` for any
other character (including the padding character). -/
def b64val (c : Char) : Option Nat :=
  if 'A' ≤ c ∧ c ≤ 'Z' then some (c.toNat - 65)
  else if 'a' ≤ c ∧ c ≤ 'z' then some (c.toNat - 97 + 26)
  else if '0' ≤ c ∧ c ≤ '9' then some (c.toNat - 48 + 52)
  else if c = '+' then some 62
  else if c = '/' then some 63
  else none

/-- The standard-alphabet symbol for a 6-bit value. -/
def b64char (n : Nat) : Char :=
  if n < 26 then Char.ofNat (65 + n)
  else if n < 52 then Char.ofNat (97 + (n - 26))
  else if n < 62 then Char.ofNat (48 + (n - 52))
  else if n = 62 then '+'
  else '/'

/-- Decode a base64 character stream four symbols at a time; padding may
appear only in the final quantum. -/
def b64decodeGroups : List Char → Except String Bytes
  | [] => Except.ok []
  | a :: b :: c :: d :: rest =>
    match b64val a, b64val b with
    | some va, some vb =>
      if rest.isEmpty then
        if c = '=' then
          if d = '=' then
            if vb % 16 = 0 then Except.ok [va * 4 + vb / 16]
            else Except.error "Invalid last symbol"
          else Except.error "Invalid byte"
        else
          match b64val c with
          | some vc =>
            if d = '=' then
              if vc % 4 = 0 then
                Except.ok [va * 4 + vb / 16, (vb % 16) * 16 + vc / 4]
              else Except.error "Invalid last symbol"
            else
              match b64val d with
              | some vd =>
                Except.ok [va * 4 + vb / 16, (vb % 16) * 16 + vc / 4,
                  (vc % 4) * 64 + vd]
              | none => Except.error "Invalid byte"
          | none => Except.error "Invalid byte"
      else
        match b64val c, b64val d with
        | some vc, some vd =>
          (b64decodeGroups rest).map
            (fun tl => (va * 4 + vb / 16) :: ((vb % 16) * 16 + vc / 4) ::
              ((vc % 4) * 64 + vd) :: tl)
        | _, _ => Except.error "Invalid byte"
    | _, _ => Except.error "Invalid byte"
  | _ => Except.error "Invalid input length"

/-- `base64::decode`: standard alphabet, padding required. -/
def b64decode (s : String) : Except String Bytes :=
  b64decodeGroups s.data

/-- Canonical base64 encoding of a byte list, three bytes at a time. -/
def b64encodeGroups : Bytes → List Char
  | [] => []
  | [x] => [b64char (x / 4), b64char ((x % 4) * 16), '=', '=']
  | [x, y] => [b64char (x / 4), b64char ((x % 4) * 16 + y / 16),
      b64char ((y % 16) * 4), '=']
  | x :: y :: z :: rest =>
    b64char (x / 4) :: b64char ((x % 4) * 16 + y / 16) ::
      b64char ((y % 16) * 4 + z / 64) :: b64char (z % 64) ::
      b64encodeGroups rest

/-- Canonical base64 encoding as a string. -/
def b64encode (bs : Bytes) : String := String.mk (b64encodeGroups bs)

/-! ## Filesystem and OS model -/

/-- The filesystem: for each path, `some contents` or `none` (absent). -/
abbrev FS := String → Option Bytes

/-- Point-update of the filesystem. -/
def setFile (fs : FS) (p : String) (c : Bytes) : FS :=
  fun q => if q = p then some c else fs q

/-- Per-call OS behaviour, external to the program: whether
`OpenOptions::open` fails (with which diagnostic), and whether the
underlying write fails (after how many bytes, with which diagnostic). -/
structure OsEnv where
  openErr : Option String
  writeErr : Option (Nat × String)

/-- `Write::write_all` on an append handle: loops until the buffer is
exhausted, so it returns without touching the OS on an empty buffer, and
an error can only surface while unwritten bytes remain. Returns the bytes
actually written, paired with the OS diagnostic on failure. -/
def writeAll (werr : Option (Nat × String)) (data : Bytes) :
    Except (String × Bytes) Bytes :=
  match werr with
  | none => Except.ok data
  | some (k, e) =>
    if data.isEmpty then Except.ok data
    else Except.error (e, data.take (min k (data.length - 1)))

/-- Result of the command: `Ok(())`, or an error string whose provenance
(the decode step of line 13, or the I/O steps of lines 15–21) we keep
visible. -/
inductive AppendResult where
  | ok : AppendResult
  | decodeError : String → AppendResult
  | ioError : String → AppendResult
deriving DecidableEq, Repr

/-- `append_chunk_to_file(path, base64)` from `lib.rs` lines 12–24:
decode the base64 payload (early return on failure), open `path` with
`create(true).append(true)` (early return on failure; the open itself
creates the file if absent), then `write_all` the decoded buffer. -/
def append_chunk_to_file (env : OsEnv) (fs : FS) (path : String)
    (base64 : String) : AppendResult × FS :=
  match b64decode base64 with
  | Except.error e => (AppendResult.decodeError e, fs)
  | Except.ok data =>
    match env.openErr with
    | some e => (AppendResult.ioError e, fs)
    | none =>
      let old := (fs path).getD []
      match writeAll env.writeErr data with
      | Except.ok w => (AppendResult.ok, setFile fs path (old ++ w))
      | Except.error (e, w) =>
          (AppendResult.ioError e, setFile fs path (old ++ w))

/-- Serial application of the command with the base64 encodings of a list
of chunks, as in spec §8 property 2. -/
def appendSerially (env : OsEnv) (fs : FS) (p : String) :
    List Bytes → FS
  | [] => fs
  | c :: rest =>
      appendSerially env (append_chunk_to_file env fs p (b64encode c)).2 p rest

/-- The command names registered with the host bridge by `run`
(`lib.rs` line 31: `tauri::generate_handler![greet]`). -/
def generate_handler_commands : List String := ["greet"]

/-- The parameter names of the `append_chunk_to_file` command
(`lib.rs` line 12). -/
def append_chunk_params : List String := ["path", "base64"]

/-- The OS environment in which neither open nor write fails. -/
def env0 : OsEnv := ⟨none, none⟩

/-- The empty filesystem. -/
def fs0 : FS := fun _ => none

/-! ## Codec lemmas -/

theorem b64val_b64char : ∀ n, n < 64 → b64val (b64char n) = some n := by decide

theorem b64char_ne_pad : ∀ n, n < 64 → b64char n ≠ '=' := by decide

theorem b64encodeGroups_ne_nil (c : Nat) (cs : Bytes) :
    (b64encodeGroups (c :: cs)).isEmpty = false := by
  rcases cs with _ | ⟨a, _ | ⟨b, rest⟩⟩ <;> simp [b64encodeGroups]

theorem b64decodeGroups_roundtrip (bs : Bytes) :
    allBytes bs → b64decodeGroups (b64encodeGroups bs) = Except.ok bs := by
  induction bs using b64encodeGroups.induct with
  | case1 => intro _; rfl
  | case2 x =>
      intro h
      have hx : x < 256 := h x (by simp)
      have e1 := b64val_b64char (x / 4) (by omega)
      have e2 := b64val_b64char ((x % 4) * 16) (by omega)
      simp only [b64encodeGroups, b64decodeGroups]
      simp [e1, e2, Nat.mul_mod_left]
      omega
  | case3 x y =>
      intro h
      have hx : x < 256 := h x (by simp)
      have hy : y < 256 := h y (by simp)
      have e1 := b64val_b64char (x / 4) (by omega)
      have e2 := b64val_b64char ((x % 4) * 16 + y / 16) (by omega)
      have e3 := b64val_b64char ((y % 16) * 4) (by omega)
      have n3 := b64char_ne_pad ((y % 16) * 4) (by omega)
      simp only [b64encodeGroups, b64decodeGroups]
      simp [e1, e2, e3, n3, Nat.mul_mod_left]
      omega
  | case4 x y z rest ih =>
      intro h
      have hx : x < 256 := h x (by simp)
      have hy : y < 256 := h y (by simp)
      have hz : z < 256 := h z (by simp)
      have hrest : allBytes rest := fun b hb => h b (by simp [hb])
      have e1 := b64val_b64char (x / 4) (by omega)
      have e2 := b64val_b64char ((x % 4) * 16 + y / 16) (by omega)
      have e3 := b64val_b64char ((y % 16) * 4 + z / 64) (by omega)
      have e4 := b64val_b64char (z % 64) (by omega)
      have n3 := b64char_ne_pad ((y % 16) * 4 + z / 64) (by omega)
      have n4 := b64char_ne_pad (z % 64) (by omega)
      rcases rest with _ | ⟨w, ws⟩
      · simp only [b64encodeGroups, b64decodeGroups]
        simp [e1, e2, e3, e4, n3, n4]
        omega
      · simp only [b64encodeGroups, b64decodeGroups]
        simp [e1, e2, e3, e4, n3, n4, b64encodeGroups_ne_nil, ih hrest,
          Except.map]
        omega

/-- Decoding a canonical encoding recovers the bytes. -/
theorem b64decode_b64encode (bs : Bytes) (h : allBytes bs) :
    b64decode (b64encode bs) = Except.ok bs :=
  b64decodeGroups_roundtrip bs h

/-! ## Command lemmas -/

theorem setFile_self (fs : FS) (p : String) (c : Bytes) :
    setFile fs p c p = some c := by
  simp [setFile]

theorem writeAll_ok_eq (werr : Option (Nat × String)) (data w : Bytes)
    (h : writeAll werr data = Except.ok w) : w = data := by
  unfold writeAll at h
  rcases werr with _ | ⟨k, e⟩
  · exact (Except.ok.injEq _ _ ▸ h).symm
  · by_cases hd : data.isEmpty <;> simp [hd] at h
    exact h.symm

theorem writeAll_nil (werr : Option (Nat × String)) :
    writeAll werr [] = Except.ok [] := by
  rcases werr with _ | ⟨k, e⟩ <;> simp [writeAll]

/-- Shape of a fully successful call: decode succeeds, open succeeds,
write succeeds; the file at `path` gains the decoded bytes. -/
theorem append_success_eq (env : OsEnv) (fs : FS) (p b : String) (data : Bytes)
    (ho : env.openErr = none) (hw : env.writeErr = none)
    (hd : b64decode b = Except.ok data) :
    append_chunk_to_file env fs p b
      = (AppendResult.ok, setFile fs p ((fs p).getD [] ++ data)) := by
  unfold append_chunk_to_file
  rw [hd, ho]
  simp [writeAll, hw]

/-- Serial appends under a failure-free OS: the target file accumulates
the concatenation of the chunks after its prior contents. -/
theorem appendSerially_spec (env : OsEnv) (p : String)
    (h1 : env.openErr = none) (h2 : env.writeErr = none) :
    ∀ (chunks : List Bytes) (fs : FS), (∀ c ∈ chunks, allBytes c) →
      (appendSerially env fs p chunks) p
        = if chunks.isEmpty then fs p
          else some (((fs p).getD []) ++ chunks.flatten) := by
  intro chunks
  induction chunks with
  | nil => intro fs _; simp [appendSerially]
  | cons c rest ih =>
      intro fs hB
      have hc : allBytes c := hB c (by simp)
      have hrest : ∀ c' ∈ rest, allBytes c' := fun c' hc' => hB c' (by simp [hc'])
      simp only [appendSerially]
      rw [append_success_eq env fs p (b64encode c) c h1 h2
        (b64decode_b64encode c hc)]
      rw [ih _ hrest]
      rcases rest with _ | ⟨c', rest'⟩
      · simp [setFile_self]
      · simp [setFile_self, List.append_assoc]

/-! ## Claims -/

/-- C1: if `append_chunk_to_file` succeeds after decoding `N` bytes, the
file at `path` has grown by exactly `N` bytes and the newly written region
at the old end-of-file equals the decoded payload byte-for-byte. -/
theorem C1_success_grows_by_decoded_payload (env : OsEnv) (fs : FS)
    (p b : String) (data : Bytes) (hd : b64decode b = Except.ok data)
    (hok : (append_chunk_to_file env fs p b).1 = AppendResult.ok) :
    (((append_chunk_to_file env fs p b).2 p).getD []).length
      = ((fs p).getD []).length + data.length ∧
    (((append_chunk_to_file env fs p b).2 p).getD []).drop
      ((fs p).getD []).length = data := by
  rcases hoe : env.openErr with _ | e
  · rcases hwr : writeAll env.writeErr data with ew | w
    · simp only [append_chunk_to_file, hd, hoe, hwr] at hok
      rcases ew with ⟨e, w⟩
      simp at hok
    · have hw : w = data := writeAll_ok_eq env.writeErr data w hwr
      subst hw
      simp only [append_chunk_to_file, hd, hoe, hwr]
      simp [setFile_self, List.drop_left]
  · simp only [append_chunk_to_file, hd, hoe] at hok
    simp at hok

/-- Witness for C1 at spec scenario 1. -/
theorem C1_witness :
    b64decode "aGVsbG8=" = Except.ok [104, 101, 108, 108, 111] ∧
    ((((append_chunk_to_file env0 fs0 "/tmp/a.bin" "aGVsbG8=").2
        "/tmp/a.bin").getD []).length
      = ((fs0 "/tmp/a.bin").getD []).length
        + ([104, 101, 108, 108, 111] : Bytes).length ∧
    (((append_chunk_to_file env0 fs0 "/tmp/a.bin" "aGVsbG8=").2
        "/tmp/a.bin").getD []).drop ((fs0 "/tmp/a.bin").getD []).length
      = [104, 101, 108, 108, 111]) :=
  ⟨by rfl, C1_success_grows_by_decoded_payload env0 fs0 "/tmp/a.bin"
    "aGVsbG8=" [104, 101, 108, 108, 111] (by rfl) (by rfl)⟩

/-- C2: for any byte sequence `B` and a path at which no file exists,
appending the base64 encoding of `B` succeeds, under a failure-free OS,
and leaves a file at the path whose contents equal `B`. -/
theorem C2_base64_roundtrip_fresh_path (env : OsEnv) (fs : FS) (p : String)
    (B : Bytes) (ho : env.openErr = none) (hw : env.writeErr = none)
    (hfresh : fs p = none) (hB : allBytes B) :
    (append_chunk_to_file env fs p (b64encode B)).1 = AppendResult.ok ∧
    (append_chunk_to_file env fs p (b64encode B)).2 p = some B := by
  rw [append_success_eq env fs p (b64encode B) B ho hw
    (b64decode_b64encode B hB)]
  simp [setFile_self, hfresh]

/-- Witness for C2 with `B = "hello"`. -/
theorem C2_witness :
    env0.openErr = none ∧ env0.writeErr = none ∧
    fs0 "/tmp/a.bin" = none ∧ allBytes [104, 101, 108, 108, 111] ∧
    ((append_chunk_to_file env0 fs0 "/tmp/a.bin"
        (b64encode [104, 101, 108, 108, 111])).1 = AppendResult.ok ∧
      (append_chunk_to_file env0 fs0 "/tmp/a.bin"
        (b64encode [104, 101, 108, 108, 111])).2 "/tmp/a.bin"
        = some [104, 101, 108, 108, 111]) :=
  ⟨rfl, rfl, rfl, by decide,
    C2_base64_roundtrip_fresh_path env0 fs0 "/tmp/a.bin"
      [104, 101, 108, 108, 111] rfl rfl rfl (by decide)⟩

/-- C3 counterexample: at a path that already holds one byte `0`, one
serial append of chunk `[1]` leaves contents `[0, 1]`, not the bare
concatenation `[1]` — the claim fails for paths where a file exists. -/
theorem C3_counterexample :
    (appendSerially env0 (setFile fs0 "f" [0]) "f" [[1]]) "f" = some [0, 1] ∧
    ¬ (appendSerially env0 (setFile fs0 "f" [0]) "f" [[1]]) "f"
        = some ([[1]] : List Bytes).flatten := by
  constructor
  · rfl
  · intro hcontra
    have : some ([0, 1] : Bytes) = some ([[1]] : List Bytes).flatten := by
      rw [← hcontra]; rfl
    simp at this

/-- C3 (amended): serial appends of the encodings of `B1…Bk` under a
failure-free OS leave the filesystem at `p` unchanged when `k = 0`, and
otherwise leave a file at `p` whose contents equal the file's prior
contents (empty when no file existed) followed by `B1 ‖ … ‖ Bk`. -/
theorem C3_serial_appends_concatenate (env : OsEnv) (fs : FS) (p : String)
    (chunks : List Bytes) (h1 : env.openErr = none)
    (h2 : env.writeErr = none) (hB : ∀ c ∈ chunks, allBytes c) :
    (appendSerially env fs p chunks) p
      = if chunks.isEmpty then fs p
        else some (((fs p).getD []) ++ chunks.flatten) :=
  appendSerially_spec env p h1 h2 chunks fs hB

/-- Witness for C3: two chunks on a fresh path concatenate. -/
theorem C3_witness :
    env0.openErr = none ∧ env0.writeErr = none ∧
    (∀ c ∈ ([[104, 105], [33]] : List Bytes), allBytes c) ∧
    (appendSerially env0 fs0 "/tmp/a.bin" [[104, 105], [33]]) "/tmp/a.bin"
      = if ([[104, 105], [33]] : List Bytes).isEmpty then fs0 "/tmp/a.bin"
        else some (((fs0 "/tmp/a.bin").getD [])
          ++ ([[104, 105], [33]] : List Bytes).flatten) :=
  ⟨rfl, rfl, by decide,
    C3_serial_appends_concatenate env0 fs0 "/tmp/a.bin" [[104, 105], [33]]
      rfl rfl (by decide)⟩

/-- C4: when base64 decoding fails, the call returns the decode error and
the filesystem is returned unchanged — no file is created and no bytes
are appended anywhere. -/
theorem C4_decode_failure_leaves_fs_unchanged (env : OsEnv) (fs : FS)
    (p s e : String) (h : b64decode s = Except.error e) :
    append_chunk_to_file env fs p s = (AppendResult.decodeError e, fs) := by
  unfold append_chunk_to_file
  rw [h]

/-- Witness for C4 at spec scenario 3. -/
theorem C4_witness :
    b64decode "!!notbase64!!" = Except.error "Invalid byte" ∧
    append_chunk_to_file env0 fs0 "/tmp/b.bin" "!!notbase64!!"
      = (AppendResult.decodeError "Invalid byte", fs0) :=
  ⟨by rfl, C4_decode_failure_leaves_fs_unchanged env0 fs0 "/tmp/b.bin"
    "!!notbase64!!" "Invalid byte" (by rfl)⟩

/-- C5: the empty base64 string decodes to zero bytes; provided the open
itself succeeds, the call succeeds, ensures a file exists at `path`
(length 0 if it was absent), and appends nothing — regardless of any
write-level failure, since `write_all` of an empty buffer is a no-op. -/
theorem C5_empty_chunk_creates_file (env : OsEnv) (fs : FS) (p : String)
    (ho : env.openErr = none) :
    append_chunk_to_file env fs p ""
      = (AppendResult.ok, setFile fs p ((fs p).getD [])) ∧
    (append_chunk_to_file env fs p "").2 p = some ((fs p).getD []) := by
  have hd : b64decode "" = Except.ok [] := rfl
  have h1 : append_chunk_to_file env fs p ""
      = (AppendResult.ok, setFile fs p ((fs p).getD [])) := by
    simp only [append_chunk_to_file, hd, ho, writeAll_nil]
    simp
  exact ⟨h1, by rw [h1]; exact setFile_self fs p _⟩

/-- Witness for C5 at spec scenario 4. -/
theorem C5_witness :
    env0.openErr = none ∧
    (append_chunk_to_file env0 fs0 "/tmp/c.bin" ""
        = (AppendResult.ok, setFile fs0 "/tmp/c.bin"
          ((fs0 "/tmp/c.bin").getD [])) ∧
      (append_chunk_to_file env0 fs0 "/tmp/c.bin" "").2 "/tmp/c.bin"
        = some ((fs0 "/tmp/c.bin").getD [])) :=
  ⟨rfl, C5_empty_chunk_creates_file env0 fs0 "/tmp/c.bin" rfl⟩

/-- C6: with a valid base64 payload, when the open fails (missing parent
directory, permissions, path is a directory, …) the call returns the OS
diagnostic as an I/O error and the filesystem is returned unchanged. -/
theorem C6_open_failure_creates_nothing (env : OsEnv) (fs : FS)
    (p b : String) (data : Bytes) (e : String)
    (hd : b64decode b = Except.ok data) (ho : env.openErr = some e) :
    append_chunk_to_file env fs p b = (AppendResult.ioError e, fs) := by
  unfold append_chunk_to_file
  rw [hd, ho]

/-- Witness for C6 at spec scenario 5. -/
theorem C6_witness :
    b64decode "AAAA" = Except.ok [0, 0, 0] ∧
    OsEnv.openErr ⟨some "No such file or directory (os error 2)", none⟩
      = some "No such file or directory (os error 2)" ∧
    append_chunk_to_file ⟨some "No such file or directory (os error 2)", none⟩
        fs0 "/nonexistent-dir/x" "AAAA"
      = (AppendResult.ioError "No such file or directory (os error 2)", fs0) :=
  ⟨by rfl, rfl,
    C6_open_failure_creates_nothing
      ⟨some "No such file or directory (os error 2)", none⟩ fs0
      "/nonexistent-dir/x" "AAAA" [0, 0, 0]
      "No such file or directory (os error 2)" (by rfl) rfl⟩

/-- C7: when a file already exists at `path`, its pre-existing bytes are
a prefix of the file's contents after the call, on every outcome — the
open never truncates and all writes land at end-of-file. -/
theorem C7_existing_bytes_preserved (env : OsEnv) (fs : FS) (p b : String)
    (old : Bytes) (h : fs p = some old) :
    ∃ tail, (append_chunk_to_file env fs p b).2 p = some (old ++ tail) := by
  rcases hdec : b64decode b with e | data
  · refine ⟨[], ?_⟩
    simp only [append_chunk_to_file, hdec]
    simp [h]
  · rcases hoe : env.openErr with _ | e
    · rcases hwr : writeAll env.writeErr data with ⟨e, w⟩ | w
      · refine ⟨w, ?_⟩
        simp only [append_chunk_to_file, hdec, hoe, hwr]
        simp [setFile_self, h]
      · refine ⟨w, ?_⟩
        simp only [append_chunk_to_file, hdec, hoe, hwr]
        simp [setFile_self, h]
    · refine ⟨[], ?_⟩
      simp only [append_chunk_to_file, hdec, hoe]
      simp [h]

/-- Witness for C7 at spec scenario 2. -/
theorem C7_witness :
    setFile fs0 "/tmp/a.bin" [104, 101, 108, 108, 111] "/tmp/a.bin"
      = some [104, 101, 108, 108, 111] ∧
    ∃ tail,
      (append_chunk_to_file env0 (setFile fs0 "/tmp/a.bin"
          [104, 101, 108, 108, 111]) "/tmp/a.bin" "IHdvcmxk").2 "/tmp/a.bin"
        = some ([104, 101, 108, 108, 111] ++ tail) :=
  ⟨by rfl,
    C7_existing_bytes_preserved env0
      (setFile fs0 "/tmp/a.bin" [104, 101, 108, 108, 111]) "/tmp/a.bin"
      "IHdvcmxk" [104, 101, 108, 108, 111] (by rfl)⟩

/-- C8: the decoded buffer goes through one logical `write_all`; a call
only reports `Ok` when the whole buffer landed in the file, and whenever
the underlying write fails part-way the call returns the OS diagnostic as
an I/O error, never a success. -/
theorem C8_no_partial_success (env : OsEnv) (fs : FS) (p b : String)
    (data : Bytes) (hd : b64decode b = Except.ok data)
    (ho : env.openErr = none) :
    ((append_chunk_to_file env fs p b).1 = AppendResult.ok →
      (append_chunk_to_file env fs p b).2 p
        = some ((fs p).getD [] ++ data)) ∧
    (∀ k e, env.writeErr = some (k, e) → data ≠ [] →
      (append_chunk_to_file env fs p b).1 = AppendResult.ioError e ∧
      ¬ (append_chunk_to_file env fs p b).1 = AppendResult.ok) := by
  constructor
  · intro hok
    rcases hwr : writeAll env.writeErr data with ⟨e, w⟩ | w
    · simp only [append_chunk_to_file, hd, ho, hwr] at hok
      simp at hok
    · have hw : w = data := writeAll_ok_eq env.writeErr data w hwr
      subst hw
      simp only [append_chunk_to_file, hd, ho, hwr]
      simp [setFile_self]
  · intro k e hke hne
    have hwr : writeAll env.writeErr data
        = Except.error (e, data.take (min k (data.length - 1))) := by
      unfold writeAll
      rw [hke]
      simp [List.isEmpty_iff, hne]
    simp only [append_chunk_to_file, hd, ho, hwr]
    simp

/-- Witness for C8: write fails after 2 of 3 bytes. -/
theorem C8_witness :
    b64decode "AAAA" = Except.ok [0, 0, 0] ∧
    OsEnv.openErr ⟨none, some (2, "No space left on device (os error 28)")⟩
      = none ∧
    (((append_chunk_to_file
          ⟨none, some (2, "No space left on device (os error 28)")⟩ fs0
          "/tmp/a.bin" "AAAA").1 = AppendResult.ok →
        (append_chunk_to_file
          ⟨none, some (2, "No space left on device (os error 28)")⟩ fs0
          "/tmp/a.bin" "AAAA").2 "/tmp/a.bin"
          = some ((fs0 "/tmp/a.bin").getD [] ++ [0, 0, 0])) ∧
      (∀ k e, OsEnv.writeErr
          ⟨none, some (2, "No space left on device (os error 28)")⟩
            = some (k, e) → ([0, 0, 0] : Bytes) ≠ [] →
        (append_chunk_to_file
          ⟨none, some (2, "No space left on device (os error 28)")⟩ fs0
          "/tmp/a.bin" "AAAA").1 = AppendResult.ioError e ∧
        ¬ (append_chunk_to_file
          ⟨none, some (2, "No space left on device (os error 28)")⟩ fs0
          "/tmp/a.bin" "AAAA").1 = AppendResult.ok)) :=
  ⟨by rfl, rfl,
    C8_no_partial_success
      ⟨none, some (2, "No space left on device (os error 28)")⟩ fs0
      "/tmp/a.bin" "AAAA" [0, 0, 0] (by rfl) rfl⟩

/-- C9: the claim is false as stated — `run` registers only `greet` with
the invoke handler (`tauri::generate_handler![greet]`), so the command
set exposed to the web UI does not include `append_chunk_to_file`, even
though the function carries a `tauri::command` attribute and declares the
two string parameters `path` and `base64`. -/
theorem C9_append_chunk_not_registered :
    generate_handler_commands = ["greet"] ∧
    "append_chunk_to_file" ∉ generate_handler_commands ∧
    append_chunk_params = ["path", "base64"] := by
  refine ⟨rfl, ?_, rfl⟩
  decide

/-- C10: decoding happens before any filesystem access — even in an
environment where the open would fail, a malformed payload yields the
decode error (never an I/O error) and the filesystem value is returned
untouched. -/
theorem C10_decode_precedes_fs_access (env : OsEnv) (fs : FS)
    (p b : String) (oe e : String) (_ho : env.openErr = some oe)
    (hd : b64decode b = Except.error e) :
    (append_chunk_to_file env fs p b).1 = AppendResult.decodeError e ∧
    (append_chunk_to_file env fs p b).2 = fs := by
  unfold append_chunk_to_file
  rw [hd]
  exact ⟨rfl, rfl⟩

/-- Witness for C10: malformed payload against an un-openable path. -/
theorem C10_witness :
    OsEnv.openErr ⟨some "Permission denied (os error 13)", none⟩
      = some "Permission denied (os error 13)" ∧
    b64decode "!!notbase64!!" = Except.error "Invalid byte" ∧
    ((append_chunk_to_file ⟨some "Permission denied (os error 13)", none⟩
        fs0 "/etc/shadow" "!!notbase64!!").1
      = AppendResult.decodeError "Invalid byte" ∧
    (append_chunk_to_file ⟨some "Permission denied (os error 13)", none⟩
        fs0 "/etc/shadow" "!!notbase64!!").2 = fs0) :=
  ⟨rfl, by rfl,
    C10_decode_precedes_fs_access
      ⟨some "Permission denied (os error 13)", none⟩ fs0 "/etc/shadow"
      "!!notbase64!!" "Permission denied (os error 13)" "Invalid byte"
      rfl (by rfl)⟩

end Ytdl
